import Mathlib

/-!
Verification development for the `cc-alchemy-statusline` script
(`src/index.mjs`): a Node statusline renderer with a credential
resolver, a background usage fetcher, a JSON cache file, and a pure
formatting path.

The JavaScript source is shallowly embedded below.  Machine numbers in
the JSON data are modelled as exact rationals (the script only does
arithmetic that is exact on the inputs the claims exercise), fallible
operations return `Option`/`Except`, and external effects (file system,
environment, child processes, HTTP) are passed in explicitly as data.
-/

namespace Statusline

/-- JSON values, as produced by `JSON.parse`. -/
inductive Json where
  | null
  | bool (b : Bool)
  | num (q : ℚ)
  | str (s : String)
  | arr (elems : List Json)
  | obj (fields : List (String × Json))

/-- The opening-brace character, written by code point. -/
def lbrace : Char := Char.ofNat 123

/-- The closing-brace character, written by code point. -/
def rbrace : Char := Char.ofNat 125

/-- JSON insignificant whitespace (also what `String.prototype.trim`
removes on the inputs we care about). -/
def isWsC (c : Char) : Bool :=
  c = ' ' || c = '\n' || c = '\t' || c = '\x0d'

/-- Drop leading whitespace characters. -/
def skipWs : List Char → List Char
  | [] => []
  | c :: cs => if isWsC c then skipWs cs else c :: cs

/-- Model of `String.prototype.trim` (on ordinary ASCII whitespace). -/
def jsTrim (s : String) : String :=
  String.mk (((s.data.dropWhile isWsC).reverse.dropWhile isWsC).reverse)

/-- Longest leading run of decimal digits, and the rest. -/
def takeDigits : List Char → List Char × List Char
  | [] => ([], [])
  | c :: cs =>
    if c.isDigit then
      let p := takeDigits cs
      (c :: p.1, p.2)
    else ([], c :: cs)

/-- Digit run to a natural number. -/
def digitsToNat (ds : List Char) : ℕ :=
  ds.foldl (fun a c => 10 * a + (c.toNat - 48)) 0

/-- Rational addition, written through `Rat.divInt` so that it stays
kernel-reducible (the ambient `+` on `ℚ` does not reduce). -/
def qadd (a b : ℚ) : ℚ :=
  Rat.divInt (a.num * (b.den : ℤ) + b.num * (a.den : ℤ)) ((a.den : ℤ) * (b.den : ℤ))

/-- Rational multiplication, kernel-reducible. -/
def qmul (a b : ℚ) : ℚ :=
  Rat.divInt (a.num * b.num) ((a.den : ℤ) * (b.den : ℤ))

/-- Multiplication by a natural, kernel-reducible. -/
def qmulN (a : ℚ) (n : ℕ) : ℚ :=
  Rat.divInt (a.num * (n : ℤ)) (a.den : ℤ)

/-- Division by a natural, kernel-reducible (division by zero is
zero, as with the ambient `/`). -/
def qdivN (a : ℚ) (n : ℕ) : ℚ :=
  Rat.divInt a.num ((a.den : ℤ) * (n : ℤ))

/-- Absolute value, kernel-reducible. -/
def qabs (a : ℚ) : ℚ :=
  if a.num < 0 then -a else a

/-- One half. -/
def qhalf : ℚ := mkRat 1 2

/-- `q * 10 ^ e` for an integer exponent, kernel-reducible. -/
def mulPow10 (q : ℚ) (e : ℤ) : ℚ :=
  if 0 ≤ e then Rat.divInt (q.num * (10 : ℤ) ^ e.toNat) (q.den : ℤ)
  else Rat.divInt q.num ((q.den : ℤ) * (10 : ℤ) ^ (-e).toNat)

/-- Value of a hexadecimal digit, if any. -/
def hexVal (c : Char) : Option ℕ :=
  if c.isDigit then some (c.toNat - 48)
  else if 'a' ≤ c && c ≤ 'f' then some (c.toNat - 87)
  else if 'A' ≤ c && c ≤ 'F' then some (c.toNat - 55)
  else none

/-- Body of a JSON string literal (after the opening quote):
the decoded characters and the remaining input. -/
def parseStrChars : List Char → Option (List Char × List Char)
  | [] => none
  | c :: cs =>
    if c = '"' then some ([], cs)
    else if c = '\\' then
      match cs with
      | [] => none
      | e :: cs2 =>
        if e = '"' || e = '\\' || e = '/' then
          (parseStrChars cs2).map (fun p => (e :: p.1, p.2))
        else if e = 'n' then
          (parseStrChars cs2).map (fun p => ('\n' :: p.1, p.2))
        else if e = 't' then
          (parseStrChars cs2).map (fun p => ('\t' :: p.1, p.2))
        else if e = 'r' then
          (parseStrChars cs2).map (fun p => ('\x0d' :: p.1, p.2))
        else if e = 'b' then
          (parseStrChars cs2).map (fun p => ('\x08' :: p.1, p.2))
        else if e = 'f' then
          (parseStrChars cs2).map (fun p => ('\x0c' :: p.1, p.2))
        else if e = 'u' then
          match cs2 with
          | a :: b :: c3 :: d :: cs3 =>
            match hexVal a, hexVal b, hexVal c3, hexVal d with
            | some ha, some hb, some hc, some hd =>
              (parseStrChars cs3).map
                (fun p => (Char.ofNat (((ha * 16 + hb) * 16 + hc) * 16 + hd) :: p.1, p.2))
            | _, _, _, _ => none
          | _ => none
        else none
    else if c.toNat < 32 then none
    else (parseStrChars cs).map (fun p => (c :: p.1, p.2))

/-- Numeric literal: optional sign, integer part (no leading zeros),
optional fraction, optional exponent. -/
def parseNumLit (cs : List Char) : Option (Json × List Char) :=
  let signed := match cs with
    | '-' :: r => (true, r)
    | _ => (false, cs)
  let neg := signed.1
  let p1 := takeDigits signed.2
  let ds := p1.1
  if ds = [] then none
  else if ds.head? = some '0' && ds.length > 1 then none
  else
    let afterInt := p1.2
    let fracPart : Option (List Char × List Char) :=
      match afterInt with
      | '.' :: r =>
        let p2 := takeDigits r
        if p2.1 = [] then none else some (p2.1, p2.2)
      | _ => some ([], afterInt)
    match fracPart with
    | none => none
    | some (fds, rest1) =>
      let expPart : Option (Int × List Char) :=
        match rest1 with
        | c :: r =>
          if c = 'e' || c = 'E' then
            let es : Int × List Char := match r with
              | '+' :: rr => (1, rr)
              | '-' :: rr => (-1, rr)
              | _ => (1, r)
            let p3 := takeDigits es.2
            if p3.1 = [] then none
            else some (es.1 * (digitsToNat p3.1 : Int), p3.2)
          else some (0, c :: r)
        | [] => some (0, [])
      match expPart with
      | none => none
      | some (e, rest2) =>
        let base : ℚ := mkRat (digitsToNat (ds ++ fds) : ℤ) (10 ^ fds.length)
        let q : ℚ := mulPow10 base e
        some (Json.num (if neg then -q else q), rest2)

/-- Selector for the single-fuel JSON parser loop. -/
inductive PReq where
  | val
  | objItems (acc : List (String × Json))
  | arrItems (acc : List Json)

/-- One fuel-indexed parsing step (value / object members / array
elements).  Structural recursion on the fuel keeps every step
kernel-reducible. -/
def parseStep : ℕ → PReq → List Char → Option (Json × List Char)
  | 0, _, _ => none
  | Nat.succ f, PReq.val, cs =>
    match skipWs cs with
    | [] => none
    | c :: rest =>
      if c = '"' then
        (parseStrChars rest).map (fun p => (Json.str (String.mk p.1), p.2))
      else if c = lbrace then
        match skipWs rest with
        | c2 :: r2 =>
          if c2 = rbrace then some (Json.obj [], r2)
          else parseStep f (PReq.objItems []) (c2 :: r2)
        | [] => none
      else if c = '[' then
        match skipWs rest with
        | ']' :: r2 => some (Json.arr [], r2)
        | r2 => parseStep f (PReq.arrItems []) r2
      else if c = 'n' then
        match rest with
        | 'u' :: 'l' :: 'l' :: r => some (Json.null, r)
        | _ => none
      else if c = 't' then
        match rest with
        | 'r' :: 'u' :: 'e' :: r => some (Json.bool true, r)
        | _ => none
      else if c = 'f' then
        match rest with
        | 'a' :: 'l' :: 's' :: 'e' :: r => some (Json.bool false, r)
        | _ => none
      else parseNumLit (c :: rest)
  | Nat.succ f, PReq.objItems acc, cs =>
    match skipWs cs with
    | c :: rest =>
      if c = '"' then
        match parseStrChars rest with
        | some (k, r1) =>
          match skipWs r1 with
          | ':' :: r2 =>
            match parseStep f PReq.val r2 with
            | some (v, r3) =>
              let acc2 := acc ++ [(String.mk k, v)]
              match skipWs r3 with
              | ',' :: r4 => parseStep f (PReq.objItems acc2) r4
              | c2 :: r4 =>
                if c2 = rbrace then some (Json.obj acc2, r4) else none
              | [] => none
            | none => none
          | _ => none
        | none => none
      else none
    | [] => none
  | Nat.succ f, PReq.arrItems acc, cs =>
    match parseStep f PReq.val cs with
    | some (v, r1) =>
      let acc2 := acc ++ [v]
      match skipWs r1 with
      | ',' :: r2 => parseStep f (PReq.arrItems acc2) r2
      | ']' :: r2 => some (Json.arr acc2, r2)
      | _ => none
    | none => none

/-- Model of `JSON.parse`: `none` models a thrown `SyntaxError`. -/
def parseJson (s : String) : Option Json :=
  match parseStep (2 * s.length + 8) PReq.val s.data with
  | some (v, rest) => if skipWs rest = [] then some v else none
  | none => none

/-- Decimal rendering of an integer. -/
def intRepr (n : Int) : String := toString n

/-- Left-pad a numeral with zeros to a given width. -/
def padZeros (w : ℕ) (s : String) : String :=
  if s.length < w then String.mk (List.replicate (w - s.length) '0') ++ s else s

/-- Decimal rendering of a rational, as JavaScript number-to-string
conversion would produce it for doubles whose value is a decimal
fraction (all numbers this script manipulates).  Rationals without a
finite decimal expansion of at most 21 digits cannot arise from parsed
JSON doubles and get a fraction fallback. -/
def numToString (q : ℚ) : String :=
  if q.den = 1 then intRepr q.num
  else
    match (List.range 21).find? (fun k => (qmulN q (10 ^ (k + 1))).den = 1) with
    | some k =>
      let digits := k + 1
      let scaled : ℕ := (qmulN (qabs q) (10 ^ digits)).num.toNat
      let ip : ℕ := scaled / 10 ^ digits
      let fr : ℕ := scaled % 10 ^ digits
      (if q < 0 then "-" else "") ++ toString ip ++ "." ++ padZeros digits (toString fr)
    | none => intRepr q.num ++ "/" ++ toString q.den

/-- Escape one character for a JSON string literal. -/
def escChar (c : Char) : String :=
  if c = '"' then "\\\""
  else if c = '\\' then "\\\\"
  else if c = '\n' then "\\n"
  else if c = '\t' then "\\t"
  else if c = '\x0d' then "\\r"
  else if c.toNat < 32 then "\\u00" ++ padZeros 2 (toString c.toNat)
  else String.singleton c

/-- Escape a string for a JSON string literal. -/
def escStr (s : String) : String :=
  s.data.foldl (fun a c => a ++ escChar c) ""

mutual

/-- Model of `JSON.stringify` (no indentation, as in the source). -/
def jsonStringify : Json → String
  | Json.null => "null"
  | Json.bool b => if b then "true" else "false"
  | Json.num q => numToString q
  | Json.str s => "\"" ++ escStr s ++ "\""
  | Json.arr xs => "[" ++ strElems xs ++ "]"
  | Json.obj fs => String.singleton lbrace ++ strFields fs ++ String.singleton rbrace

/-- Comma-joined serialized array elements. -/
def strElems : List Json → String
  | [] => ""
  | [x] => jsonStringify x
  | x :: xs => jsonStringify x ++ "," ++ strElems xs

/-- Comma-joined serialized object members. -/
def strFields : List (String × Json) → String
  | [] => ""
  | [kv] => "\"" ++ escStr kv.1 ++ "\":" ++ jsonStringify kv.2
  | kv :: r => "\"" ++ escStr kv.1 ++ "\":" ++ jsonStringify kv.2 ++ "," ++ strFields r

end

/-- JavaScript truthiness of a parsed JSON value. -/
def Json.truthy : Json → Bool
  | Json.null => false
  | Json.bool b => b
  | Json.num q => q ≠ 0
  | Json.str s => s ≠ ""
  | Json.arr _ => true
  | Json.obj _ => true

/-- `Number("...")` on a string: trimmed empty is 0, otherwise a plain
decimal numeral (`none` models NaN; the exotic accepted forms — hex,
`Infinity`, bare sign — do not occur in this script's data). -/
def strToNumber (s : String) : Option ℚ :=
  let t := jsTrim s
  if t = "" then some 0
  else
    match parseNumLit t.data with
    | some (Json.num q, []) => some q
    | _ => none

/-- JavaScript `ToNumber` on a parsed JSON value (`none` models NaN).
Arrays and objects are modelled as NaN: the script never does
arithmetic on them, so their `ToPrimitive` detour is not needed. -/
def toNumber : Json → Option ℚ
  | Json.null => some 0
  | Json.bool b => some (if b then 1 else 0)
  | Json.num q => some q
  | Json.str s => strToNumber s
  | Json.arr _ => none
  | Json.obj _ => none

/-- Property lookup on an object: with duplicate keys `JSON.parse`
keeps the last occurrence, so the scan keeps the last match. -/
def lookupLast (fs : List (String × Json)) (k : String) : Option Json :=
  fs.foldl (fun acc kv => if kv.1 = k then some kv.2 else acc) none

/-- Property access that cannot throw: `some` is a present property,
`none` is `undefined` (non-objects have no own JSON properties).  Used
only where the source guards the receiver with `|| {}`, so the
`null` receiver (which would throw) is unreachable. -/
def getProp (v : Json) (k : String) : Option Json :=
  match v with
  | Json.obj fs => lookupLast fs k
  | _ => none

/-- A thrown JavaScript runtime error (the script never inspects the
message, only whether one escaped). -/
inductive JsErr where
  | typeError
deriving DecidableEq

/-- Property access as the source performs it unguarded: reading a
property of `null` throws a `TypeError`. -/
def jsProp (v : Json) (k : String) : Except JsErr (Option Json) :=
  match v with
  | Json.null => Except.error JsErr.typeError
  | Json.obj fs => Except.ok (lookupLast fs k)
  | _ => Except.ok none

/-- `a || b` where `a` is a property read (undefined falls through). -/
def jsOrD (a : Option Json) (b : Json) : Json :=
  match a with
  | some v => if v.truthy then v else b
  | none => b

/-- `a?.k` optional chaining over possibly-undefined values. -/
def optChain (a : Option Json) (k : String) : Option Json :=
  match a with
  | none => none
  | some Json.null => none
  | some v => getProp v k

/-- A JavaScript value in flight: a JSON value or NaN (which
arithmetic can produce but `JSON.parse` cannot). -/
inductive JsVal where
  | ofJson (j : Json)
  | nan

/-- `ToNumber` on an in-flight value. -/
def toNumV : JsVal → Option ℚ
  | JsVal.ofJson j => toNumber j
  | JsVal.nan => none

/-- `String(v)` on an in-flight value.  Arrays and objects never reach
a stringification site in the script, so their JS renderings
(`join`/`[object Object]`) are abbreviated. -/
def jsValToString : JsVal → String
  | JsVal.ofJson (Json.str s) => s
  | JsVal.ofJson (Json.num q) => numToString q
  | JsVal.ofJson (Json.bool b) => if b then "true" else "false"
  | JsVal.ofJson Json.null => "null"
  | JsVal.ofJson (Json.arr _) => "[array]"
  | JsVal.ofJson (Json.obj _) => "[object Object]"
  | JsVal.nan => "NaN"

/-- JS `x >= c` with NaN on the left comparing false. -/
def jsGE (x : Option ℚ) (c : ℚ) : Bool :=
  match x with
  | some q => c ≤ q
  | none => false

/-- Number of binary digits of a natural (fuel-indexed, so every
concrete evaluation is kernel-reducible). -/
def bitlenF : ℕ → ℕ → ℕ
  | 0, _ => 0
  | Nat.succ f, n => if n = 0 then 0 else bitlenF f (n / 2) + 1

/-- Number of binary digits of a natural. -/
def bitlen (n : ℕ) : ℕ := bitlenF (n + 1) n

/-- `2 ^ k` as a rational, for an integer exponent. -/
def pow2q (k : ℤ) : ℚ :=
  if 0 ≤ k then Rat.divInt ((2 : ℤ) ^ k.toNat) 1 else mkRat 1 (2 ^ (-k).toNat)

/-- For positive `q`, the `k` with `2 ^ k ≤ q < 2 ^ (k + 1)`.  The
bit lengths of numerator and denominator pin it to two candidates;
one comparison decides. -/
def ilog2q (q : ℚ) : ℤ :=
  let k0 : ℤ := (bitlen q.num.toNat : ℤ) - (bitlen q.den : ℤ)
  if q < pow2q k0 then k0 - 1 else k0

/-- Round a positive rational to the nearest IEEE-754 binary64 value
(ties to even), returned as the exact rational it denotes.  The
script only feeds it quotients well inside the normal finite range,
so overflow and subnormals are out of the model. -/
def roundPosDouble (q : ℚ) : ℚ :=
  let e : ℤ := ilog2q q - 52
  let s : ℚ := qmul q (pow2q (-e))
  let m0 : ℤ := Rat.floor s
  let fr : ℚ := qadd s (-(Rat.divInt m0 1))
  let m : ℤ :=
    if qhalf < fr then m0 + 1
    else if fr < qhalf then m0
    else if m0 % 2 = 0 then m0 else m0 + 1
  qmul (Rat.divInt m 1) (pow2q e)

/-- Round a rational to the nearest binary64 value (the result of a
JavaScript floating-point operation whose exact value is `q`). -/
def roundDouble (q : ℚ) : ℚ :=
  if q = 0 then 0
  else if q < 0 then -(roundPosDouble (-q)) else roundPosDouble q

/-- The integer `toFixed(1)` scales its argument to: the multiple of
one tenth nearest to `q`, ties upward (ECMA: "if there are two such
n, pick the larger n"). -/
def toFixedInt (q : ℚ) : ℤ :=
  Rat.floor (qadd (qmulN q 10) qhalf)

/-- `(q).toFixed(1)`: one decimal digit, nearest tenth of the
argument with ties upward.  ECMA defines this on the exact value of
the double argument, so exact rational arithmetic is faithful here —
the caller must supply the double-rounded value. -/
def toFixed1 (q : ℚ) : String :=
  intRepr (toFixedInt q / 10) ++ "." ++ intRepr (toFixedInt q % 10)

/-- The millions rule in the claim's own words, one decimal place by
half-up rounding of the exact quotient `n / 10^6`; kept as a separate,
clearly named definition to compare against the program's `ftok`. -/
def specMillionsHalfUp (n : ℕ) : String :=
  toString ((10 * n + 500000) / 1000000 / 10) ++ "." ++
    toString ((10 * n + 500000) / 1000000 % 10) ++ "M"

/-- `rgb(r, g, b)` — a 24-bit foreground escape, or nothing when
colors are off. -/
def rgb (uc : Bool) (r g b : ℕ) : String :=
  if uc then
    "\x1b[38;2;" ++ toString r ++ ";" ++ toString g ++ ";" ++ toString b ++ "m"
  else ""

/-- `RST` — style reset (empty when colors are off). -/
def RST (uc : Bool) : String := if uc then "\x1b[0m" else ""

/-- `DIM` color. -/
def DIM (uc : Bool) : String := rgb uc 108 112 134

/-- `TEXT` color. -/
def TEXT (uc : Bool) : String := rgb uc 205 214 244

/-- `BRANCH` color. -/
def BRANCHC (uc : Bool) : String := rgb uc 137 180 250

/-- `DIRTY` color. -/
def DIRTYC (uc : Bool) : String := rgb uc 250 179 135

/-- `GREEN` color. -/
def GREEN (uc : Bool) : String := rgb uc 166 227 161

/-- `YELLOW` color. -/
def YELLOW (uc : Bool) : String := rgb uc 249 226 175

/-- `RED` color. -/
def RED (uc : Bool) : String := rgb uc 243 139 168

/-- `pcolor(p)` — three-tier threshold color; the comparisons coerce
the operand to a number, and NaN compares false on both, landing on
`RED`. -/
def pcolor (uc : Bool) (p : Json) : String :=
  match toNumber p with
  | some q => if q < 50 then GREEN uc else if q < 90 then YELLOW uc else RED uc
  | none => RED uc

/-- `osc8(url, text)` — terminal hyperlink wrapper. -/
def osc8 (uc : Bool) (url text : String) : String :=
  if uc then "\x1b]8;;" ++ url ++ "\x07" ++ text ++ "\x1b]8;;\x07" else text

/-- `ftok(n)` — token-count abbreviation.  The two threshold
comparisons coerce to number (NaN compares false); the fallback
stringifies the original value, exactly as `String(n)` does.  The
millions quotient `n / 1_000_000` is a double division, so it is
rounded to binary64 before `toFixed(1)` sees it; the thousands
branch only runs for values below `10^6`, where
`Math.floor` of the double quotient coincides with the exact floor
(the double error there is far below the `1/1000` gap to the nearest
integer boundary), so it uses the exact quotient. -/
def ftok (v : JsVal) : String :=
  if jsGE (toNumV v) 1000000 then
    toFixed1 (roundDouble (qdivN ((toNumV v).getD 0) 1000000)) ++ "M"
  else if jsGE (toNumV v) 1000 then
    intRepr (Rat.floor (qdivN ((toNumV v).getD 0) 1000)) ++ "k"
  else jsValToString v

/-- `loadJson(path)` — the cache-store load.  `none` is a missing
file; any read or parse failure is caught and becomes `{}`. -/
def loadJson (file : Option String) : Json :=
  match file with
  | none => Json.obj []
  | some s => (parseJson s).getD (Json.obj [])

/-- The parenthesized remaining-time suffix of a usage segment
(source lines 337-345): seconds until `resets_at`, clamped at zero,
split into hours and minutes; `none` is a NaN timestamp, which JS
arithmetic propagates into the minutes branch. -/
def fmtRemaining (resetMs : Option Int) (nowMs : Int) : String :=
  match resetMs with
  | none => "(NaNm)"
  | some r =>
    let secs : Int := max 0 (Int.fdiv (r - nowMs) 1000)
    let s : ℕ := secs.toNat
    let h : ℕ := s / 3600
    let m : ℕ := s % 3600 / 60
    if h > 24 then "(" ++ toString (h / 24) ++ "d" ++ toString (h % 24) ++ "h)"
    else if h > 0 then "(" ++ toString h ++ "h" ++ toString m ++ "m)"
    else "(" ++ toString m ++ "m)"

/-- Read exactly `n` decimal digits. -/
def exactDigits : ℕ → List Char → Option (ℕ × List Char)
  | 0, cs => some (0, cs)
  | Nat.succ n, c :: cs =>
    if c.isDigit then
      (exactDigits n cs).map (fun p => ((c.toNat - 48) * 10 ^ n + p.1, p.2))
    else none
  | Nat.succ _, [] => none

/-- Days between 1970-01-01 and a proleptic-Gregorian civil date
(the standard era-based formula, with floor division). -/
def daysFromCivil (y : Int) (m d : ℕ) : Int :=
  let y2 : Int := y - (if m ≤ 2 then 1 else 0)
  let era : Int := Int.fdiv y2 400
  let yoe : Int := y2 - era * 400
  let mp : ℕ := (m + 9) % 12
  let doy : Int := (153 * (mp : Int) + 2) / 5 + (d : Int) - 1
  let doe : Int := yoe * 365 + yoe / 4 - yoe / 100 + doy
  era * 146097 + doe - 719468

/-- Epoch milliseconds of an ISO-8601 timestamp
`YYYY-MM-DD[THH:MM:SS[.mmm]][Z]` (the only string shape the usage API
emits; offsets other than `Z` and the rest of the `Date` grammar are
out of the model, yielding NaN). -/
def isoMs (s : String) : Option Int :=
  match exactDigits 4 s.data with
  | some (y, '-' :: r1) =>
    match exactDigits 2 r1 with
    | some (mo, '-' :: r2) =>
      match exactDigits 2 r2 with
      | some (d, r3) =>
        if mo = 0 || mo > 12 || d = 0 || d > 31 then none
        else
          let dayMs : Int := daysFromCivil (y : Int) mo d * 86400000
          match r3 with
          | [] => some dayMs
          | 'T' :: r4 =>
            match exactDigits 2 r4 with
            | some (hh, ':' :: r5) =>
              match exactDigits 2 r5 with
              | some (mi, ':' :: r6) =>
                match exactDigits 2 r6 with
                | some (ss, r7) =>
                  let base : Int :=
                    dayMs + (hh : Int) * 3600000 + (mi : Int) * 60000 + (ss : Int) * 1000
                  match r7 with
                  | [] => some base
                  | ['Z'] => some base
                  | '.' :: r8 =>
                    match exactDigits 3 r8 with
                    | some (ms, []) => some (base + (ms : Int))
                    | some (ms, ['Z']) => some (base + (ms : Int))
                    | _ => none
                  | _ => none
                | _ => none
              | _ => none
            | _ => none
          | _ => none
      | _ => none
    | _ => none
  | _ => none

/-- `new Date(v).getTime()` on a cache field value (`none` is NaN,
an invalid date).  Numbers are clipped to integral milliseconds;
arrays and objects are modelled as invalid. -/
def jsDateMs : Json → Option Int
  | Json.num q => some (Int.tdiv q.num (q.den : Int))
  | Json.str s => isoMs s
  | Json.bool b => some (if b then 1 else 0)
  | Json.null => some 0
  | Json.arr _ => none
  | Json.obj _ => none

/-- `platform()` values the script distinguishes. -/
inductive Platform where
  | darwin
  | win32
  | other
deriving DecidableEq

/-- Everything the credential resolver reads from the outside world.
`none` on a command result means the external invocation threw
(missing tool, access denied, timeout); `none` from `fs` means the
path fails `existsSync` or `readFileSync` throws.  Path joins are
written with `/` (the separator never matters to the claims). -/
structure TokenEnv where
  envToken : Option String
  platf : Platform
  keychainRaw : Option String
  psFails : Bool
  credStore : String → Option String
  fs : String → Option String
  appdata : String
  localAppData : String
  home : String

/-- `JSON.parse(raw)?.claudeAiOauth?.accessToken`, kept only when
truthy; any parse failure is `none` (the source wraps each use in
`try`/`catch`). -/
def extractTruthy (raw : String) : Option Json :=
  match parseJson raw with
  | none => none
  | some j =>
    match optChain (optChain (some j) "claudeAiOauth") "accessToken" with
    | some t => if t.truthy then some t else none
    | none => none

/-- Source 1: the `CLAUDE_CODE_OAUTH_TOKEN` environment variable
(returned directly when truthy). -/
def envSource (e : TokenEnv) : Option Json :=
  match e.envToken with
  | some t => if t ≠ "" then some (Json.str t) else none
  | none => none

/-- Source 2 (macOS only): the Keychain `security` query, trimmed,
then the nested-token extraction. -/
def macSource (e : TokenEnv) : Option Json :=
  if e.platf = Platform.darwin then
    match e.keychainRaw with
    | some raw => extractTruthy (jsTrim raw)
    | none => none
  else none

/-- The candidate Credential Manager target names tried by the
embedded PowerShell script, in order. -/
def credKeys : List String :=
  ["Claude Code-credentials", "Claude Code", "claude-code"]

/-- Stdout of the PowerShell block: the first candidate key whose
`CredRead` succeeds with a non-empty blob, else empty output. -/
def psOut (e : TokenEnv) : String :=
  (credKeys.findSome? (fun k =>
    match e.credStore k with
    | some b => if b ≠ "" then some b else none
    | none => none)).getD ""

/-- Source 3 (Windows only): the Credential Manager via PowerShell;
a thrown invocation is swallowed, a non-empty trimmed output goes
through the nested-token extraction. -/
def winSource (e : TokenEnv) : Option Json :=
  if e.platf = Platform.win32 then
    if e.psFails then none
    else
      let raw := jsTrim (psOut e)
      if raw ≠ "" then extractTruthy raw else none
  else none

/-- The on-disk credential file candidates, in push order. -/
def credPaths (e : TokenEnv) : List String :=
  [e.home ++ "/.claude/.credentials.json"] ++
    (if e.platf = Platform.win32 then
      (if e.appdata ≠ "" then
        [e.appdata ++ "/Claude/.credentials.json",
         e.appdata ++ "/claude-code/.credentials.json"]
       else []) ++
      (if e.localAppData ≠ "" then
        [e.localAppData ++ "/Claude/.credentials.json"]
       else [])
     else [])

/-- Source 4, per file: read, parse, extract; every failure skips to
the next path. -/
def fileSource (e : TokenEnv) (p : String) : Option Json :=
  (e.fs p).bind extractTruthy

/-- The `for (const p of credPaths)` loop with its early `return`. -/
def fileLoop (e : TokenEnv) : List String → Option Json
  | [] => none
  | p :: ps =>
    match fileSource e p with
    | some t => some t
    | none => fileLoop e ps

/-- `getToken()` — the credential resolver, with the source's early
returns as a match cascade; the final `return null` is `none`. -/
def getToken (e : TokenEnv) : Option Json :=
  match envSource e with
  | some t => some t
  | none =>
    match macSource e with
    | some t => some t
    | none =>
      match winSource e with
      | some t => some t
      | none => fileLoop e (credPaths e)

/-- The resolver's sources in their fixed priority order (platform
gating included), for stating the first-wins property. -/
def tokenSources (e : TokenEnv) : List (Option Json) :=
  envSource e :: macSource e :: winSource e :: (credPaths e).map (fileSource e)

/-- How one fetch attempt in the detached child concludes: the
request errors, times out, or a response arrives with a status code
and a fully-read body. -/
inductive FetchEvent where
  | netError
  | timeout
  | response (status : ℕ) (body : String)

/-- The cache object built from a parsed response body: `cached_at`
plus whichever of the two optional windows is present and truthy. -/
def fetchCacheValue (data : Json) (nowIso : String) : Json :=
  Json.obj ([("cached_at", Json.str nowIso)] ++
    (match getProp data "five_hour" with
     | some v => if v.truthy then [("five_hour", v)] else []
     | none => []) ++
    (match getProp data "seven_day" with
     | some v => if v.truthy then [("seven_day", v)] else []
     | none => []))

/-- What `doFetchRequest`'s handlers write: `none` means the cache
file is not touched.  Note the response status code is never
consulted, exactly as in the source; only `JSON.parse` failing (or
the body being the JSON `null`, whose property reads throw inside
the same `try`) suppresses the write. -/
def fetchWriteValue (ev : FetchEvent) (nowIso : String) : Option Json :=
  match ev with
  | FetchEvent.netError => none
  | FetchEvent.timeout => none
  | FetchEvent.response _status body =>
    match parseJson body with
    | none => none
    | some Json.null => none
    | some data => some (fetchCacheValue data nowIso)

/-- Cache-file content after the detached child handles its fetch
outcome. -/
def doFetchCache (ev : FetchEvent) (old : Option String) (nowIso : String) :
    Option String :=
  match fetchWriteValue ev nowIso with
  | none => old
  | some v => some (jsonStringify v)

/-- `CACHE_FILE` — the cache path. -/
def CACHE_FILE (home : String) : String :=
  home ++ "/.claude/statusline_cache.json"

/-- A cache-file write discipline: a single direct write to the
target, or a write to a temp file followed by an atomic rename. -/
inductive FsWrite where
  | direct (path : String) (content : String)
  | tempThenRename (tmpPath : String) (path : String) (content : String)

/-- Whether a write uses the temp-file-then-rename pattern. -/
def FsWrite.usesTempRename : FsWrite → Bool
  | FsWrite.direct _ _ => false
  | FsWrite.tempThenRename _ _ _ => true

/-- The write the source performs on fetch success:
`writeFileSync(CACHE_FILE, JSON.stringify(cache))`, a direct
truncating write to the final path. -/
def saveMechanism (home : String) (cacheObj : Json) : FsWrite :=
  FsWrite.direct (CACHE_FILE home) (jsonStringify cacheObj)

/-- Contents a concurrent reader can observe at the target path while
the write is in flight: a direct write truncates and then appends, so
every prefix of the new content is observable; a temp-then-rename
write exposes only the old and the new content. -/
def midStates : FsWrite → String → List String
  | FsWrite.direct _ c, old =>
    old :: (List.range (c.length + 1)).map (fun k => String.mk (c.data.take k))
  | FsWrite.tempThenRename _ _ c, old => [old, c]

/-- Observable result of one whole process run. -/
structure ProcOutcome where
  exitCode : ℕ
  stdout : List String
  cacheAfter : Option String

/-- `fetchOnly()` — the `--fetch-only` entry: resolve a credential,
exit 1 without output or cache writes when there is none, otherwise
run the fetch (whose outcome never changes the exit status) and
finish with status 0. -/
def fetchOnly (e : TokenEnv) (ev : FetchEvent) (old : Option String)
    (nowIso : String) : ProcOutcome :=
  match getToken e with
  | none => ⟨1, [], old⟩
  | some _ => ⟨0, [], doFetchCache ev old nowIso⟩

/-- Does a list of characters start with the given pattern? -/
def startsWithL : List Char → List Char → Bool
  | [], _ => true
  | _ :: _, [] => false
  | p :: ps, c :: cs => p = c && startsWithL ps cs

/-- Split around the first occurrence of a pattern:
(text before it, text after it), or `none` when absent. -/
def splitAtOcc (pat : List Char) : List Char → Option (List Char × List Char)
  | [] => if pat = [] then some ([], []) else none
  | c :: cs =>
    if startsWithL pat (c :: cs) then some ([], (c :: cs).drop pat.length)
    else (splitAtOcc pat cs).map (fun p => (c :: p.1, p.2))

/-- `s.replace(pat, repl)` with a string pattern: first occurrence
only. -/
def replaceFirst (s pat repl : String) : String :=
  match splitAtOcc pat.data s.data with
  | some p => String.mk p.1 ++ repl ++ String.mk p.2
  | none => s

/-- `.replace(/ /g, " ")` — every ordinary space becomes a
non-breaking space. -/
def nbspAll (s : String) : String :=
  String.mk (s.data.map (fun c => if c = ' ' then Char.ofNat 160 else c))

/-- `Array.prototype.join` with a separator. -/
def joinSep (sep : String) : List String → String
  | [] => ""
  | [x] => x
  | x :: xs => x ++ sep ++ joinSep sep xs

/-- What the external `git` commands produced for the session
directory (an external collaborator; command failures already
collapsed to empty/false by `exec`). -/
structure GitInfo where
  branch : String
  dirty : Bool
  remote : String

/-- The git segment: present only with a branch, starred and
recolored when dirty, hyperlinked when a remote is known. -/
def gitSegment (uc : Bool) (g : GitInfo) : List String :=
  if g.branch = "" then []
  else
    let bd := if g.dirty then g.branch ++ "*" else g.branch
    let bc := if g.dirty then DIRTYC uc else BRANCHC uc
    [if g.remote ≠ "" then bc ++ osc8 uc g.remote bd ++ RST uc
     else bc ++ bd ++ RST uc]

/-- `ctx.context_window_size || 200000` (any falsy value falls back,
as `||` does). -/
def ctxSize (ctx : Json) : Json :=
  jsOrD (getProp ctx "context_window_size") (Json.num 200000)

/-- `ctx.used_percentage || 0`. -/
def ctxPct (ctx : Json) : Json :=
  jsOrD (getProp ctx "used_percentage") (Json.num 0)

/-- Wrap a possibly-NaN arithmetic result back into a JS value. -/
def valOfNum : Option ℚ → JsVal
  | some q => JsVal.ofJson (Json.num q)
  | none => JsVal.nan

/-- The context segment: `used/total` with the threshold color on the
used percentage; `ut = Math.floor((cs * cp) / 100)`. -/
def contextSegment (uc : Bool) (ctx : Json) : String :=
  let cs := ctxSize ctx
  let cp := ctxPct ctx
  let ut : Option ℚ :=
    (toNumber cs).bind (fun a => (toNumber cp).map
      (fun b => Rat.divInt (Rat.floor (qdivN (qmul a b) 100)) 1))
  pcolor uc cp ++ ftok (valOfNum ut) ++ DIM uc ++ "/" ++ ftok (JsVal.ofJson cs) ++ RST uc

/-- `${Math.round(util)}` as interpolated text (NaN stringifies). -/
def roundStr (u : Json) : String :=
  match toNumber u with
  | some q => intRepr (Rat.floor (qadd q qhalf))
  | none => "NaN"

/-- One usage segment (the body of the `5h`/`7d` loop): reading
`cache[key]` throws when the cache value is `null`; a present,
non-null `utilization` renders a percentage plus the reset timer when
`resets_at` is truthy, otherwise the neutral `--` placeholder. -/
def usageSegment (uc : Bool) (cache : Json) (label key : String) (now : Int) :
    Except JsErr String := do
  let pv ← jsProp cache key
  let period := jsOrD pv (Json.obj [])
  match getProp period "utilization" with
  | none => pure (DIM uc ++ label ++ " " ++ TEXT uc ++ "--" ++ RST uc)
  | some Json.null => pure (DIM uc ++ label ++ " " ++ TEXT uc ++ "--" ++ RST uc)
  | some u =>
    let base := DIM uc ++ label ++ " " ++ pcolor uc u ++ roundStr u ++ "%"
    let txt :=
      match getProp period "resets_at" with
      | some rv =>
        if rv.truthy then base ++ " " ++ DIM uc ++ fmtRemaining (jsDateMs rv) now
        else base
      | none => base
    pure (txt ++ RST uc)

/-- Everything one render invocation reads from the outside world.
`stdinRaw = none` models `readFileSync(0)` throwing. -/
structure RenderEnv where
  stdinRaw : Option String
  cacheRaw : Option String
  git : GitInfo
  nowMs : Int
  useColor : Bool

/-- The segment list of the render path, in source order; the
uncaught `TypeError`s of the source (property reads on `null`,
`.replace` on a non-string) surface as `Except.error`.  The
`data.workspace?.current_dir` read only feeds the external git
commands (modelled by the environment's `git`) and cannot throw once
`data.model` has been read. -/
def renderParts (env : RenderEnv) (data cache : Json) :
    Except JsErr (List String) := do
  let uc := env.useColor
  let modelJ := jsOrD (← jsProp data "model") (Json.obj [])
  let nameV := jsOrD (getProp modelJ "display_name")
    (jsOrD (getProp modelJ "id") (Json.str "?"))
  let name ←
    match nameV with
    | Json.str s => Except.ok (replaceFirst s "Claude " "")
    | _ => Except.error JsErr.typeError
  let parts1 := [TEXT uc ++ name ++ RST uc]
  let parts2 := parts1 ++ gitSegment uc env.git
  let ctx := jsOrD (getProp data "context_window") (Json.obj [])
  let parts3 := parts2 ++ [contextSegment uc ctx]
  let s5 ← usageSegment uc cache "5h" "five_hour" env.nowMs
  let s7 ← usageSegment uc cache "7d" "seven_day" env.nowMs
  pure (parts3 ++ [s5, s7])

/-- Externally observable steps of one render invocation. -/
inductive Ev where
  | readStdin
  | readCache
  | trigger
  | print (s : String)
deriving DecidableEq

/-- Trace and outcome of one render invocation: the stdout lines and
exit status, or the uncaught error that crashed the process. -/
structure RunResult where
  events : List Ev
  outcome : Except JsErr (List String × ℕ)

/-- The inter-segment separator. -/
def SEPs (uc : Bool) : String := " " ++ DIM uc ++ "|" ++ RST uc ++ " "

/-- `main()`'s render path (stdin is piped, no `--fetch-only`):
read and trim stdin, fall back to the fixed `No data` line on
absent/empty/unparseable input, otherwise load the cache, call
`fetchUsage()` (the background-refresh trigger, fire-and-forget),
build the segments, and print the reset-prefixed, non-breaking-space
line. -/
def renderMain (env : RenderEnv) : RunResult :=
  match env.stdinRaw with
  | none => ⟨[Ev.readStdin, Ev.print "No data"], Except.ok (["No data"], 0)⟩
  | some raw =>
    let input := jsTrim raw
    if input = "" then
      ⟨[Ev.readStdin, Ev.print "No data"], Except.ok (["No data"], 0)⟩
    else
      match parseJson input with
      | none => ⟨[Ev.readStdin, Ev.print "No data"], Except.ok (["No data"], 0)⟩
      | some data =>
        let cache := loadJson env.cacheRaw
        match renderParts env data cache with
        | Except.error e =>
          ⟨[Ev.readStdin, Ev.readCache, Ev.trigger], Except.error e⟩
        | Except.ok parts =>
          let out := "\x1b[0m" ++ nbspAll (joinSep (SEPs env.useColor) parts)
          ⟨[Ev.readStdin, Ev.readCache, Ev.trigger, Ev.print out],
            Except.ok ([out], 0)⟩

/-- Position of the first print event. -/
def firstPrintIdx (evs : List Ev) : ℕ :=
  evs.findIdx (fun e => match e with | Ev.print _ => true | _ => false)

/-- The ordering discipline the specification claims of one render
invocation: the refresh trigger fires, and it fires before the cache
is read and before anything is printed. -/
def triggerFirstB (evs : List Ev) : Bool :=
  evs.contains Ev.trigger &&
    decide (evs.findIdx (· == Ev.trigger) < evs.findIdx (· == Ev.readCache)) &&
    decide (evs.findIdx (· == Ev.trigger) < firstPrintIdx evs)

/-! ### Bridging lemmas between the reducible arithmetic and `ℚ` -/

theorem qadd_eq (a b : ℚ) : qadd a b = a + b := by
  have ha : ((a.den : ℚ)) ≠ 0 := Nat.cast_ne_zero.mpr a.den_nz
  have hb : ((b.den : ℚ)) ≠ 0 := Nat.cast_ne_zero.mpr b.den_nz
  rw [qadd, Rat.divInt_eq_div]
  push_cast
  conv_rhs => rw [← Rat.num_div_den a, ← Rat.num_div_den b]
  field_simp
  try ring

theorem qmul_eq (a b : ℚ) : qmul a b = a * b := by
  rw [qmul, Rat.divInt_eq_div]
  push_cast
  conv_rhs => rw [← Rat.num_div_den a, ← Rat.num_div_den b]
  rw [div_mul_div_comm]

theorem qmulN_eq (a : ℚ) (n : ℕ) : qmulN a n = a * n := by
  rw [qmulN, Rat.divInt_eq_div]
  push_cast
  conv_rhs => rw [← Rat.num_div_den a]
  rw [div_mul_eq_mul_div]

theorem qdivN_eq (a : ℚ) (n : ℕ) : qdivN a n = a / n := by
  rw [qdivN, Rat.divInt_eq_div]
  push_cast
  conv_rhs => rw [← Rat.num_div_den a]
  rw [div_div]

theorem qhalf_eq : qhalf = 1 / 2 := by
  rw [qhalf, Rat.mkRat_eq_div]
  norm_num

theorem ratFloor_eq_floor (x : ℚ) : Rat.floor x = ⌊x⌋ := by
  rw [Rat.floor_def', Rat.floor_def]

theorem intRepr_natCast (n : ℕ) : intRepr (n : ℤ) = toString n := rfl

/-! ### The claims -/

/-- C7: `loadJson` never raises (it is total), returns the empty
snapshot `{}` on a missing cache file and on any JSON parse failure;
no such failure is an error value. -/
theorem c7_load_missing_or_corrupt_is_empty :
    loadJson none = Json.obj [] ∧
    ∀ s : String, parseJson s = none → loadJson (some s) = Json.obj [] := by
  refine ⟨rfl, ?_⟩
  intro s h
  simp [loadJson, h]

/-- Witness for C7 at a concrete corrupt cache content. -/
theorem c7_load_missing_or_corrupt_is_empty_witness :
    parseJson "not json" = none ∧ loadJson (some "not json") = Json.obj [] :=
  ⟨rfl, c7_load_missing_or_corrupt_is_empty.2 "not json" rfl⟩

set_option maxRecDepth 100000 in
/-- C9 counterexample: the program divides doubles before rounding,
so `ftok(2550000)` is `2.5M` — the exact quotient `2.55` falls to the
nearest binary64 just below the tie and `toFixed(1)` then picks the
strictly closer `2.5` — while the claim's one-decimal half-up rule on
the exact quotient demands `2.6M`. -/
theorem c9_millions_tie_cex :
    ftok (JsVal.ofJson (Json.num 2550000)) = "2.5M" ∧
    specMillionsHalfUp 2550000 = "2.6M" ∧
    ftok (JsVal.ofJson (Json.num 2550000)) ≠ specMillionsHalfUp 2550000 := by
  refine ⟨by decide, by decide, by decide⟩

set_option maxRecDepth 100000 in
/-- C9 amended: integers below 1000 are shown as-is and thousands as
`Nk` with floor of the exact quotient (both exact); the millions form
shows one decimal digit obtained by `toFixed(1)` on the
binary64-rounded quotient `n / 10^6` — always the nearest tenth of
that double, ties upward — which matches half-up rounding of the
exact quotient except at representation ties: 500 → `500`,
1500 → `1k`, 1234000 → `1.2M`, but 2550000 → `2.5M`. -/
theorem c9_ftok_abbreviation_amended :
    (∀ n : ℕ, n < 1000 → ftok (JsVal.ofJson (Json.num n)) = toString n) ∧
    (∀ n : ℕ, 1000 ≤ n → n < 1000000 →
      ftok (JsVal.ofJson (Json.num n)) = toString (n / 1000) ++ "k") ∧
    (∀ n : ℕ, 1000000 ≤ n →
      ftok (JsVal.ofJson (Json.num n)) =
        intRepr (toFixedInt (roundDouble (qdivN (n : ℚ) 1000000)) / 10) ++ "." ++
          intRepr (toFixedInt (roundDouble (qdivN (n : ℚ) 1000000)) % 10) ++ "M") ∧
    (∀ q : ℚ, |((toFixedInt q : ℤ) : ℚ) / 10 - q| ≤ 1 / 20) ∧
    ftok (JsVal.ofJson (Json.num 500)) = "500" ∧
    ftok (JsVal.ofJson (Json.num 1500)) = "1k" ∧
    ftok (JsVal.ofJson (Json.num 1234000)) = "1.2M" ∧
    ftok (JsVal.ofJson (Json.num 2550000)) = "2.5M" := by
  refine ⟨?_, ?_, ?_, ?_, by decide, by decide, by decide, by decide⟩
  · intro n h
    have h1 : ¬ ((1000000 : ℚ) ≤ (n : ℚ)) := by exact_mod_cast by omega
    have h2 : ¬ ((1000 : ℚ) ≤ (n : ℚ)) := by exact_mod_cast by omega
    unfold ftok
    rw [if_neg (by simpa [jsGE, toNumV, toNumber] using h1),
      if_neg (by simpa [jsGE, toNumV, toNumber] using h2)]
    show numToString ((n : ℕ) : ℚ) = toString n
    rw [numToString, if_pos (by simp), Rat.num_natCast, intRepr_natCast]
  · intro n h1 h2
    have g1 : ¬ ((1000000 : ℚ) ≤ (n : ℚ)) := by exact_mod_cast by omega
    have g2 : (1000 : ℚ) ≤ (n : ℚ) := by exact_mod_cast h1
    unfold ftok
    rw [if_neg (by simpa [jsGE, toNumV, toNumber] using g1),
      if_pos (by simpa [jsGE, toNumV, toNumber] using g2)]
    show intRepr (Rat.floor (qdivN ((n : ℕ) : ℚ) 1000)) ++ "k" =
      toString (n / 1000) ++ "k"
    rw [qdivN_eq, ratFloor_eq_floor, Rat.floor_natCast_div_natCast,
      ← Int.ofNat_ediv, intRepr_natCast]
  · intro n h
    have g1 : (1000000 : ℚ) ≤ (n : ℚ) := by exact_mod_cast h
    unfold ftok
    rw [if_pos (by simpa [jsGE, toNumV, toNumber] using g1)]
    rfl
  · intro q
    rw [toFixedInt, qmulN_eq, qadd_eq, qhalf_eq, ratFloor_eq_floor]
    have hle := Int.floor_le (q * ((10 : ℕ) : ℚ) + 1 / 2)
    have hlt := Int.lt_floor_add_one (q * ((10 : ℕ) : ℚ) + 1 / 2)
    rw [abs_le]
    push_cast at hle hlt ⊢
    constructor <;> linarith

/-- Witness for C9's amended statement: all three branch hypotheses
discharged at concrete counts, including the millions shape at
1234000. -/
theorem c9_ftok_abbreviation_amended_witness :
    ftok (JsVal.ofJson (Json.num 7)) = "7" ∧
    ftok (JsVal.ofJson (Json.num 24000)) = "24k" ∧
    ftok (JsVal.ofJson (Json.num 1234000)) =
      intRepr (toFixedInt (roundDouble (qdivN ((1234000 : ℕ) : ℚ) 1000000)) / 10) ++ "." ++
        intRepr (toFixedInt (roundDouble (qdivN ((1234000 : ℕ) : ℚ) 1000000)) % 10) ++ "M" :=
  ⟨c9_ftok_abbreviation_amended.1 7 (by omega),
   by
    have h := c9_ftok_abbreviation_amended.2.1 24000 (by omega) (by omega)
    simpa using h,
   c9_ftok_abbreviation_amended.2.2.1 1234000 (by omega)⟩

/-- C10: `ctx.context_window_size || 200000` substitutes the default
for every falsy value (0, null, the empty string), not only a missing
field, `used_percentage` likewise defaults to 0, and no numeric
`context_window_size` ever yields a zero total. -/
theorem c10_ctx_falsy_defaults :
    (∀ v : Json, v.truthy = false →
      ctxSize (Json.obj [("context_window_size", v)]) = Json.num 200000 ∧
      ctxPct (Json.obj [("used_percentage", v)]) = Json.num 0) ∧
    ctxSize (Json.obj []) = Json.num 200000 ∧
    ctxPct (Json.obj []) = Json.num 0 ∧
    (∀ ctx : Json, ∀ q : ℚ, ctxSize ctx = Json.num q → q ≠ 0) := by
  refine ⟨?_, rfl, rfl, ?_⟩
  · intro v hv
    constructor
    · simp [ctxSize, getProp, lookupLast, jsOrD, hv]
    · simp [ctxPct, getProp, lookupLast, jsOrD, hv]
  · intro ctx q hq
    rcases hgp : getProp ctx "context_window_size" with _ | v
    · simp only [ctxSize, jsOrD, hgp, Json.num.injEq] at hq
      subst hq
      norm_num
    · simp only [ctxSize, jsOrD, hgp] at hq
      by_cases ht : v.truthy = true
      · rw [if_pos ht] at hq
        subst hq
        simpa [Json.truthy] using ht
      · rw [if_neg ht] at hq
        simp only [Json.num.injEq] at hq
        subst hq
        norm_num

/-- Remaining-time core: a future reset `S` whole seconds away yields
exactly `S` clamped seconds. -/
theorem fmtRemaining_shift (now : Int) (S : ℕ) :
    (max 0 (Int.fdiv (now + 1000 * (S : ℤ) - now) 1000)).toNat = S := by
  have h1 : now + 1000 * (S : ℤ) - now = 1000 * (S : ℤ) := by ring
  rw [h1, Int.mul_fdiv_cancel_left _ (by norm_num),
    max_eq_right (by positivity), Int.toNat_natCast]

/-- C6: the remaining-time suffix is computed from the reset time
minus now, clamped to zero, and formatted days+hours when more than
24 whole hours remain, hours+minutes when more than 0 whole hours
remain, else minutes; with the spec's examples. -/
theorem c6_remaining_time_format :
    (∀ r now : Int, r ≤ now → fmtRemaining (some r) now = "(0m)") ∧
    (∀ now : Int, ∀ hrs mins s : ℕ, mins < 60 → s < 60 → 24 < hrs →
      fmtRemaining (some (now + 1000 * ((3600 * hrs + 60 * mins + s : ℕ) : ℤ))) now =
        "(" ++ toString (hrs / 24) ++ "d" ++ toString (hrs % 24) ++ "h)") ∧
    (∀ now : Int, ∀ hrs mins s : ℕ, mins < 60 → s < 60 → 0 < hrs → hrs ≤ 24 →
      fmtRemaining (some (now + 1000 * ((3600 * hrs + 60 * mins + s : ℕ) : ℤ))) now =
        "(" ++ toString hrs ++ "h" ++ toString mins ++ "m)") ∧
    (∀ now : Int, ∀ mins s : ℕ, mins < 60 → s < 60 →
      fmtRemaining (some (now + 1000 * ((60 * mins + s : ℕ) : ℤ))) now =
        "(" ++ toString mins ++ "m)") ∧
    fmtRemaining (some 1800000) 0 = "(30m)" ∧
    fmtRemaining (some 9240000) 0 = "(2h34m)" ∧
    fmtRemaining (some 331200000) 0 = "(3d20h)" ∧
    fmtRemaining (some (-1)) 0 = "(0m)" := by
  refine ⟨?_, ?_, ?_, ?_, by decide, by decide, by decide, by decide⟩
  · intro r now h
    have hf : Int.fdiv (r - now) 1000 ≤ 0 := by
      rw [Int.fdiv_eq_ediv _ (by norm_num)]
      calc (r - now) / 1000 ≤ 0 / 1000 := Int.ediv_le_ediv (by norm_num) (by omega)
        _ = 0 := by norm_num
    simp only [fmtRemaining]
    rw [max_eq_left hf]
    rfl
  · intro now hrs mins s hm hs h24
    simp only [fmtRemaining, fmtRemaining_shift]
    have hdiv : (3600 * hrs + 60 * mins + s) / 3600 = hrs := by omega
    have hmod : (3600 * hrs + 60 * mins + s) % 3600 / 60 = mins := by omega
    rw [hdiv, hmod, if_pos h24]
  · intro now hrs mins s hm hs h0 h24
    simp only [fmtRemaining, fmtRemaining_shift]
    have hdiv : (3600 * hrs + 60 * mins + s) / 3600 = hrs := by omega
    have hmod : (3600 * hrs + 60 * mins + s) % 3600 / 60 = mins := by omega
    rw [hdiv, hmod, if_neg (by omega), if_pos h0]
  · intro now mins s hm hs
    simp only [fmtRemaining, fmtRemaining_shift]
    have hdiv : (60 * mins + s) / 3600 = 0 := by omega
    have hmod : (60 * mins + s) % 3600 / 60 = mins := by omega
    rw [hdiv, hmod, if_neg (by omega), if_neg (by omega)]

/-- Witness for C6: each universal instantiated at a concrete time. -/
theorem c6_remaining_time_format_witness :
    fmtRemaining (some 100) 200 = "(0m)" ∧
    fmtRemaining (some (5 + 1000 * ((3600 * 92 + 60 * 0 + 0 : ℕ) : ℤ))) 5 = "(3d20h)" ∧
    fmtRemaining (some (5 + 1000 * ((3600 * 2 + 60 * 34 + 0 : ℕ) : ℤ))) 5 = "(2h34m)" ∧
    fmtRemaining (some (5 + 1000 * ((60 * 30 + 0 : ℕ) : ℤ))) 5 = "(30m)" :=
  ⟨c6_remaining_time_format.1 100 200 (by omega),
   by
    have h := c6_remaining_time_format.2.1 5 92 0 0 (by omega) (by omega) (by omega)
    simpa using h,
   by
    have h := c6_remaining_time_format.2.2.1 5 2 34 0 (by omega) (by omega)
      (by omega) (by omega)
    simpa using h,
   by
    have h := c6_remaining_time_format.2.2.2.1 5 30 0 (by omega) (by omega)
    simpa using h⟩

/-- The credential-file loop is the first-wins scan of its sources. -/
theorem fileLoop_eq_findSome (e : TokenEnv) :
    ∀ ps : List String, fileLoop e ps = (ps.map (fileSource e)).findSome? id := by
  intro ps
  induction ps with
  | nil => rfl
  | cons p ps ih =>
    rw [fileLoop, List.map_cons, List.findSome?_cons]
    cases fileSource e p <;> simp [ih]

/-- A first-wins scan is `none` exactly when every source is. -/
theorem findSome_id_eq_none (l : List (Option Json)) :
    l.findSome? id = none ↔ ∀ s ∈ l, s = none := by
  induction l with
  | nil => simp
  | cons a l ih =>
    rw [List.findSome?_cons]
    cases a <;> simp_all

/-- C4: `getToken` equals the first-wins scan of its sources in the
fixed priority order (environment variable, macOS Keychain, Windows
Credential Manager over its key names, then the credential files),
and returns `none` exactly when every source fails.  Every source
failure is data (`none`), never an exception: the resolver is a total
function. -/
theorem c4_token_priority_first_wins (e : TokenEnv) :
    getToken e = (tokenSources e).findSome? id ∧
    (getToken e = none ↔ ∀ s ∈ tokenSources e, s = none) := by
  have h1 : getToken e = (tokenSources e).findSome? id := by
    rw [getToken, tokenSources]
    rw [List.findSome?_cons]
    cases envSource e with
    | some t => rfl
    | none =>
      rw [List.findSome?_cons]
      cases macSource e with
      | some t => rfl
      | none =>
        rw [List.findSome?_cons]
        cases winSource e with
        | some t => rfl
        | none => exact fileLoop_eq_findSome e (credPaths e)
  exact ⟨h1, by rw [h1]; exact findSome_id_eq_none _⟩

/-- C8: fetch-only mode exits 1 with no output and no cache change
when no credential resolves, and exits 0 with no output when one
does. -/
theorem c8_fetch_only_exit_codes
    (e : TokenEnv) (ev : FetchEvent) (old : Option String) (nowIso : String) :
    (getToken e = none →
      fetchOnly e ev old nowIso = ⟨1, [], old⟩) ∧
    (∀ t : Json, getToken e = some t →
      (fetchOnly e ev old nowIso).exitCode = 0 ∧
      (fetchOnly e ev old nowIso).stdout = []) := by
  constructor
  · intro h
    simp [fetchOnly, h]
  · intro t h
    simp [fetchOnly, h]

/-- Witness for C8: a world with no credential anywhere, and one with
the environment token set. -/
theorem c8_fetch_only_exit_codes_witness :
    fetchOnly ⟨none, Platform.other, none, true, fun _ => none, fun _ => none,
        "", "", "/h"⟩ FetchEvent.netError (some "old") "T" = ⟨1, [], some "old"⟩ ∧
    (fetchOnly ⟨some "tok", Platform.other, none, true, fun _ => none,
        fun _ => none, "", "", "/h"⟩ FetchEvent.netError (some "old") "T").exitCode = 0 ∧
    (fetchOnly ⟨some "tok", Platform.other, none, true, fun _ => none,
        fun _ => none, "", "", "/h"⟩ FetchEvent.netError (some "old") "T").stdout = [] :=
  ⟨(c8_fetch_only_exit_codes _ FetchEvent.netError (some "old") "T").1 rfl,
   (c8_fetch_only_exit_codes _ FetchEvent.netError (some "old") "T").2
      (Json.str "tok") rfl⟩

/-- C1 counterexample: the source's cache save is a single direct
`writeFileSync` to the cache path itself — not a temp-file-then-rename
— and a concurrent load can observe the lone brace `{`, a corrupt
prefix that fails to parse; the claim's required mechanism is absent
at this concrete snapshot. -/
theorem c1_save_not_atomic_cex :
    (saveMechanism "/h" (Json.obj [("cached_at", Json.str "T")])).usesTempRename
      = false ∧
    String.singleton lbrace ∈
      midStates (saveMechanism "/h" (Json.obj [("cached_at", Json.str "T")]))
        "\x7b\"cached_at\":\"A\"\x7d" ∧
    parseJson (String.singleton lbrace) = none := by
  refine ⟨rfl, ?_, rfl⟩
  decide

/-- C1 amended: the save is a direct truncating write of the
serialized snapshot to the cache path (no temp file, no rename); a
concurrent load can observe a corrupt prefix such as `{`, and such a
reader never raises — it degrades every unparseable observation to
the empty snapshot. -/
theorem c1_save_direct_write_amended
    (home : String) (fields : List (String × Json)) (old : String) :
    saveMechanism home (Json.obj fields) =
      FsWrite.direct (CACHE_FILE home) (jsonStringify (Json.obj fields)) ∧
    (saveMechanism home (Json.obj fields)).usesTempRename = false ∧
    String.singleton lbrace ∈ midStates (saveMechanism home (Json.obj fields)) old ∧
    parseJson (String.singleton lbrace) = none ∧
    (∀ s ∈ midStates (saveMechanism home (Json.obj fields)) old,
      loadJson (some s) = (parseJson s).getD (Json.obj [])) := by
  have hdata : (jsonStringify (Json.obj fields)).data =
      lbrace :: ((strFields fields ++ String.singleton rbrace).data) := rfl
  refine ⟨rfl, rfl, ?_, rfl, ?_⟩
  · show String.singleton lbrace ∈
      old :: (List.range ((jsonStringify (Json.obj fields)).length + 1)).map
        (fun k => String.mk ((jsonStringify (Json.obj fields)).data.take k))
    refine List.mem_cons_of_mem _ (List.mem_map.mpr ⟨1, ?_, ?_⟩)
    · have : 0 < (jsonStringify (Json.obj fields)).length := by
        show 0 < (jsonStringify (Json.obj fields)).data.length
        rw [hdata]
        simp
      exact List.mem_range.mpr (by omega)
    · rw [hdata]
      rfl
  · intro s _
    rfl

/-- Witness for C1's amended statement at a concrete snapshot, old
content and observed mid-state. -/
theorem c1_save_direct_write_amended_witness :
    String.singleton lbrace ∈
      midStates (saveMechanism "/h" (Json.obj [("cached_at", Json.str "T")])) "x" ∧
    loadJson (some (String.singleton lbrace)) =
      (parseJson (String.singleton lbrace)).getD (Json.obj []) :=
  ⟨(c1_save_direct_write_amended "/h" [("cached_at", Json.str "T")] "x").2.2.1,
   (c1_save_direct_write_amended "/h" [("cached_at", Json.str "T")] "x").2.2.2.2
     (String.singleton lbrace)
     (c1_save_direct_write_amended "/h" [("cached_at", Json.str "T")] "x").2.2.1⟩

/-- C3 counterexample: the detached fetcher never inspects the HTTP
status; a 403 response with a JSON error body is treated like
success, so the cache is overwritten (losing the previous snapshot)
instead of left untouched. -/
theorem c3_non2xx_overwrites_cex :
    fetchWriteValue (FetchEvent.response 403 "\x7b\"error\":\"forbidden\"\x7d")
        "2026-01-01T00:00:00Z" =
      some (Json.obj [("cached_at", Json.str "2026-01-01T00:00:00Z")]) ∧
    doFetchCache (FetchEvent.response 403 "\x7b\"error\":\"forbidden\"\x7d")
        (some "\x7b\"cached_at\":\"A\",\"five_hour\":\x7b\"utilization\":18\x7d\x7d")
        "2026-01-01T00:00:00Z" ≠
      some "\x7b\"cached_at\":\"A\",\"five_hour\":\x7b\"utilization\":18\x7d\x7d" := by
  refine ⟨rfl, ?_⟩
  decide

/-- C3 amended: network errors, timeouts, non-JSON bodies (and a JSON
`null` body, whose property reads throw inside the same handler)
leave the cache untouched; but the status code is ignored, so any
response with a parseable JSON body — 2xx or not — overwrites the
cache identically. -/
theorem c3_failure_handling_amended (old : Option String) (nowIso : String) :
    doFetchCache FetchEvent.netError old nowIso = old ∧
    doFetchCache FetchEvent.timeout old nowIso = old ∧
    (∀ st : ℕ, ∀ body : String, parseJson body = none →
      doFetchCache (FetchEvent.response st body) old nowIso = old) ∧
    (∀ st : ℕ, ∀ body : String, parseJson body = some Json.null →
      doFetchCache (FetchEvent.response st body) old nowIso = old) ∧
    (∀ st1 st2 : ℕ, ∀ body : String,
      doFetchCache (FetchEvent.response st1 body) old nowIso =
        doFetchCache (FetchEvent.response st2 body) old nowIso) := by
  refine ⟨rfl, rfl, ?_, ?_, ?_⟩
  · intro st body h
    simp [doFetchCache, fetchWriteValue, h]
  · intro st body h
    simp [doFetchCache, fetchWriteValue, h]
  · intro st1 st2 body
    rfl

/-- Witness for C3's amended statement: a failing parse leaves the
cache alone; status 200 and 403 produce identical cache contents. -/
theorem c3_failure_handling_amended_witness :
    doFetchCache (FetchEvent.response 500 "oops") (some "keep") "T" = some "keep" ∧
    doFetchCache (FetchEvent.response 500 "null") (some "keep") "T" = some "keep" ∧
    doFetchCache (FetchEvent.response 200 "\x7b\x7d") (some "keep") "T" =
      doFetchCache (FetchEvent.response 403 "\x7b\x7d") (some "keep") "T" :=
  ⟨(c3_failure_handling_amended (some "keep") "T").2.2.1 500 "oops" rfl,
   (c3_failure_handling_amended (some "keep") "T").2.2.2.1 500 "null" rfl,
   (c3_failure_handling_amended (some "keep") "T").2.2.2.2 200 403 "\x7b\x7d"⟩

/-- C2 counterexample: on a well-formed invocation the trigger fires
only after the cache has been read (the source comment even says
"Read cache FIRST ... then trigger"), and on an unparseable
invocation no trigger fires at all — refuting "unconditionally first
on every render invocation". -/
theorem c2_trigger_not_first_cex :
    triggerFirstB (renderMain ⟨some "\x7b\"model\":\x7b\"display_name\":\"X\"\x7d\x7d",
        none, ⟨"", false, ""⟩, 0, false⟩).events = false ∧
    (renderMain ⟨some "bad", none, ⟨"", false, ""⟩, 0, false⟩).events.contains
        Ev.trigger = false := by
  constructor <;> decide

/-- C2 amended: on every invocation whose stdin parses as JSON, the
renderer reads the cache first, then fires the refresh trigger, and
only then prints; on fallback invocations (absent, empty or invalid
stdin) no trigger fires and the fallback line is printed directly. -/
theorem c2_trigger_after_cache_amended (env : RenderEnv) :
    (∀ raw data, env.stdinRaw = some raw → jsTrim raw ≠ "" →
      parseJson (jsTrim raw) = some data →
      ((renderMain env).events.take 3 = [Ev.readStdin, Ev.readCache, Ev.trigger] ∧
       ∀ i s, (renderMain env).events.get? i = some (Ev.print s) → 3 ≤ i)) ∧
    (env.stdinRaw = none →
      (renderMain env).events = [Ev.readStdin, Ev.print "No data"]) ∧
    (∀ raw, env.stdinRaw = some raw →
      jsTrim raw = "" ∨ parseJson (jsTrim raw) = none →
      (renderMain env).events = [Ev.readStdin, Ev.print "No data"]) := by
  refine ⟨?_, ?_, ?_⟩
  · intro raw data hsr hne hparse
    simp only [renderMain, hsr]
    rw [if_neg hne]
    simp only [hparse]
    cases h : renderParts env data (loadJson env.cacheRaw) with
    | error e =>
      simp only [h]
      refine ⟨rfl, ?_⟩
      intro i s hi
      rcases i with _ | (_ | (_ | i))
      · simp at hi
      · simp at hi
      · simp at hi
      · omega
    | ok parts =>
      simp only [h]
      refine ⟨rfl, ?_⟩
      intro i s hi
      rcases i with _ | (_ | (_ | i))
      · simp at hi
      · simp at hi
      · simp at hi
      · omega
  · intro h
    simp [renderMain, h]
  · intro raw hsr hbad
    simp only [renderMain, hsr]
    by_cases he : jsTrim raw = ""
    · rw [if_pos he]
    · rw [if_neg he]
      rcases hbad with hbad | hbad
      · exact absurd hbad he
      · simp only [hbad]

/-- Witness for C2's amended statement: a parsed invocation and a
fallback invocation. -/
theorem c2_trigger_after_cache_amended_witness :
    (renderMain ⟨some "\x7b\"model\":\x7b\"display_name\":\"X\"\x7d\x7d", none,
        ⟨"", false, ""⟩, 0, false⟩).events.take 3 =
      [Ev.readStdin, Ev.readCache, Ev.trigger] ∧
    (renderMain ⟨some "bad", none, ⟨"", false, ""⟩, 0, false⟩).events =
      [Ev.readStdin, Ev.print "No data"] :=
  ⟨((c2_trigger_after_cache_amended _).1 "\x7b\"model\":\x7b\"display_name\":\"X\"\x7d\x7d"
      (Json.obj [("model", Json.obj [("display_name", Json.str "X")])])
      rfl (by decide) rfl).1,
   (c2_trigger_after_cache_amended _).2.2 "bad" rfl (Or.inr rfl)⟩

/-- C5 counterexample: stdin holding the valid JSON text `null`
passes the parse guard, but the unguarded `data.model` read then
throws: the run crashes with an uncaught TypeError and prints
nothing, refuting "never fails visibly for any parsed JSON value". -/
theorem c5_null_input_crashes_cex :
    renderMain ⟨some "null", none, ⟨"", false, ""⟩, 0, false⟩ =
      ⟨[Ev.readStdin, Ev.readCache, Ev.trigger], Except.error JsErr.typeError⟩ := rfl

/-- C5 amended: for absent, empty or syntactically invalid stdin the
renderer always prints the fixed fallback line and exits 0, and
whenever the segment construction itself does not throw it prints
exactly one line and exits 0; but a parsed JSON value such as `null`
can escape the guard and crash the render path. -/
theorem c5_fallback_amended (env : RenderEnv) :
    (env.stdinRaw = none →
      renderMain env =
        ⟨[Ev.readStdin, Ev.print "No data"], Except.ok (["No data"], 0)⟩) ∧
    (∀ raw, env.stdinRaw = some raw →
      jsTrim raw = "" ∨ parseJson (jsTrim raw) = none →
      renderMain env =
        ⟨[Ev.readStdin, Ev.print "No data"], Except.ok (["No data"], 0)⟩) ∧
    (∀ raw data parts, env.stdinRaw = some raw → jsTrim raw ≠ "" →
      parseJson (jsTrim raw) = some data →
      renderParts env data (loadJson env.cacheRaw) = Except.ok parts →
      (renderMain env).outcome =
        Except.ok (["\x1b[0m" ++ nbspAll (joinSep (SEPs env.useColor) parts)], 0)) := by
  refine ⟨?_, ?_, ?_⟩
  · intro h
    simp [renderMain, h]
  · intro raw hsr hbad
    simp only [renderMain, hsr]
    by_cases he : jsTrim raw = ""
    · rw [if_pos he]
    · rw [if_neg he]
      rcases hbad with hbad | hbad
      · exact absurd hbad he
      · simp only [hbad]
  · intro raw data parts hsr hne hparse hok
    simp only [renderMain, hsr]
    rw [if_neg hne]
    simp only [hparse, hok]

/-- Witness for C5's amended statement: absent, empty and invalid
stdin all land on the fallback line with exit code 0. -/
theorem c5_fallback_amended_witness :
    renderMain ⟨none, none, ⟨"", false, ""⟩, 0, false⟩ =
      ⟨[Ev.readStdin, Ev.print "No data"], Except.ok (["No data"], 0)⟩ ∧
    renderMain ⟨some "  ", none, ⟨"", false, ""⟩, 0, false⟩ =
      ⟨[Ev.readStdin, Ev.print "No data"], Except.ok (["No data"], 0)⟩ ∧
    renderMain ⟨some "\x7b,", none, ⟨"", false, ""⟩, 0, false⟩ =
      ⟨[Ev.readStdin, Ev.print "No data"], Except.ok (["No data"], 0)⟩ :=
  ⟨(c5_fallback_amended _).1 rfl,
   (c5_fallback_amended _).2.1 "  " rfl (Or.inl rfl),
   (c5_fallback_amended _).2.1 "\x7b," rfl (Or.inr rfl)⟩

/-- Witness for C10 at the three concrete falsy values. -/
theorem c10_ctx_falsy_defaults_witness :
    ctxSize (Json.obj [("context_window_size", Json.num 0)]) = Json.num 200000 ∧
    ctxSize (Json.obj [("context_window_size", Json.null)]) = Json.num 200000 ∧
    ctxSize (Json.obj [("context_window_size", Json.str "")]) = Json.num 200000 ∧
    ctxPct (Json.obj [("used_percentage", Json.num 0)]) = Json.num 0 :=
  ⟨(c10_ctx_falsy_defaults.1 (Json.num 0) (by simp [Json.truthy])).1,
   (c10_ctx_falsy_defaults.1 Json.null rfl).1,
   (c10_ctx_falsy_defaults.1 (Json.str "") (by simp [Json.truthy])).1,
   (c10_ctx_falsy_defaults.1 (Json.num 0) (by simp [Json.truthy])).2⟩

end Statusline
